import Mathlib

/-!
Shallow embedding of the REST API in `src/routes/index.js` together with the
persistence schema of `src/db/models/user.js` and `src/db/models/course.js`.
The database is a pure value (lists of rows plus auto-increment counters);
each Express handler becomes a function from the database and the parsed
request to a response, the successor database, and the number of persistence
calls it issued.  External libraries (bcryptjs, validator.js) are modelled
from the spec where noted.
-/

/-- A stored `Users` row (src/db/models/user.js).  Timestamps are modelled as
naturals; they never influence control flow. -/
structure UserRec where
  id : Nat
  firstName : String
  lastName : String
  emailAddress : String
  password : String
  createdAt : Nat
  updatedAt : Nat
deriving Repr, DecidableEq

/-- A stored `Courses` row (src/db/models/course.js).  `userId` is NOT NULL
via the `belongsTo`/`hasMany` association (`allowNull: false`), so it is a
plain `Nat`; `estimatedTime` and `materialsNeeded` are nullable. -/
structure CourseRec where
  id : Nat
  userId : Nat
  title : String
  description : String
  estimatedTime : Option String
  materialsNeeded : Option String
  createdAt : Nat
  updatedAt : Nat
deriving Repr, DecidableEq

/-- The whole relational store: both tables plus their auto-increment
counters. -/
structure DB where
  users : List UserRec
  courses : List CourseRec
  nextUserId : Nat
  nextCourseId : Nat
deriving Repr, DecidableEq

/-- The empty store the application starts from. -/
def DB.init : DB := ⟨[], [], 1, 1⟩

/-- Parsed body of a POST /users request; a field is `none` when the JSON key
is absent. -/
structure UserBody where
  firstName : Option String
  lastName : Option String
  emailAddress : Option String
  password : Option String
deriving Repr, DecidableEq

/-- Parsed body of a POST or PUT /courses request; a field is `none` when the
JSON key is absent. -/
structure CourseBody where
  userId : Option Nat
  title : Option String
  description : Option String
  estimatedTime : Option String
  materialsNeeded : Option String
deriving Repr, DecidableEq

/-- Basic-Authentication credentials as decoded by the `basic-auth`
package. -/
structure Credentials where
  name : String
  pass : String
deriving Repr, DecidableEq

/-- The course projection returned by GET /api/courses (the `attributes`
list at src/routes/index.js:167). -/
structure CourseProj where
  id : Nat
  userId : Nat
  title : String
  description : String
  estimatedTime : Option String
  materialsNeeded : Option String
deriving Repr, DecidableEq

/-- Response bodies the router can emit. -/
inductive RBody where
  | empty : RBody
  | message : String → RBody
  | error : String → RBody
  | errors : List String → RBody
  | userView : List (String × String) → RBody
  | courseList : List CourseProj → RBody
  | course : Option CourseRec → RBody
  | dbError : RBody
deriving Repr, DecidableEq

/-- An HTTP response: status, optional Location header, body. -/
structure Response where
  status : Nat
  location : Option String
  body : RBody
deriving Repr, DecidableEq

/-- Result of one handler: the response, the successor database, and how many
persistence calls (reads plus writes) the handler issued. -/
structure HOut where
  resp : Response
  db : DB
  dbOps : Nat
deriving Repr, DecidableEq

/-- JavaScript `String.prototype.trim`: drop leading and trailing whitespace
(used at src/routes/index.js:122 and :203). -/
def jsTrim (s : String) : String :=
  String.mk (((s.data.dropWhile Char.isWhitespace).reverse.dropWhile
    Char.isWhitespace).reverse)

/-- Modelled from the spec: the email-syntax rule of the validation layer
(`isEmail` of validator.js, reached through express-validator, is not part of
this repository).  Per the spec the email address "must conform to email
syntax": exactly one at-sign, neither the local part nor the domain empty,
and no whitespace characters anywhere. -/
def isEmail (s : String) : Bool :=
  (s.data.count '@' == 1) && (s.data.head? != some '@')
    && (s.data.getLast? != some '@')
    && s.data.all (fun c => !c.isWhitespace)

/-- Modelled from the spec: `bcryptjs.hashSync` (external library) produces a
one-way salted hash, "stored only as a one-way salted hash, never plaintext".
The model tags the scrambled password with the bcrypt version prefix and the
salt; `salt` is the random salt chosen at call time. -/
def bcryptHash (salt p : String) : String :=
  "$2a$10$" ++ salt ++ "$" ++ String.mk p.data.reverse

/-- Modelled from the spec: `bcryptjs.compareSync` (external library) checks
a plaintext password against a stored salted hash. -/
def bcryptCompare (p h : String) : Bool :=
  (h.data.take 7 == "$2a$10$".data)
    && (h.data.reverse.take p.data.length == p.data)

/-- `User.findOne({where: {emailAddress}})`: first stored user with that
exact email address. -/
def findUserByEmail (db : DB) (email : String) : Option UserRec :=
  db.users.find? (fun u => u.emailAddress == email)

/-- Outcome of the authentication middleware: either the resolved
`req.currentUser` or the 401 response it already sent. -/
inductive AuthResult where
  | ok : UserRec → AuthResult
  | denied : Response → AuthResult
deriving Repr, DecidableEq

/-- What `authenticateUser` did: its outcome, the message passed to
`console.warn` (if any), and how many persistence reads it issued. -/
structure AuthOut where
  result : AuthResult
  log : Option String
  reads : Nat
deriving Repr

/-- The `authenticateUser` middleware (src/routes/index.js:30-67).  `creds`
is the decoded Basic-Authentication header, `none` when the header is absent.
Every failure path answers 401 with the constant body; the specific cause
goes only to the log. -/
def authenticateUser (db : DB) (creds : Option Credentials) : AuthOut :=
  match creds with
  | none =>
    ⟨.denied ⟨401, none, .message "Access Denied"⟩, some "Auth header not found", 0⟩
  | some c =>
    match findUserByEmail db c.name with
    | none =>
      ⟨.denied ⟨401, none, .message "Access Denied"⟩,
        some ("User not found for username: " ++ c.name), 1⟩
    | some user =>
      if bcryptCompare c.pass user.password then
        ⟨.ok user, none, 1⟩
      else
        ⟨.denied ⟨401, none, .message "Access Denied"⟩,
          some ("Authentication failure for username: " ++ user.emailAddress), 1⟩

/-- One validator of an express-validator chain: the test applied to the raw
field value (absent fields test as `none`) and the message reported when the
test fails. -/
structure Validator where
  test : Option String → Bool
  msg : String

/-- One `check(field)` chain: how to read the field from the body, and the
validators to run on it, in order. -/
structure FieldChain (β : Type) where
  field : β → Option String
  validators : List Validator

/-- `exists({checkNull: true, checkFalsy: true})`: the field must be present
and not falsy (for string fields: not the empty string). -/
def existsNonFalsy (v : Option String) : Bool :=
  match v with
  | none => false
  | some s => !s.isEmpty

/-- Run the validators of one chain, collecting the messages of every
failing validator in order. -/
def runValidators (vs : List Validator) (v : Option String) : List String :=
  (vs.filter (fun vd => !(vd.test v))).map (fun vd => vd.msg)

/-- Run a whole middleware array of chains: every chain runs, every failing
validator reports, messages in declaration order — this is what
`validationResult(req).array().map(error => error.msg)` yields. -/
def runChecks (chains : List (FieldChain β)) (b : β) : List String :=
  (chains.map (fun ch => runValidators ch.validators (ch.field b))).flatten

/-- The POST /users validation chains (src/routes/index.js:92-105).  The
`emailAddress` chain is `.exists(...).isEmail().withMessage(...)`: the custom
message binds to `isEmail` only, so a failing `exists` reports the
express-validator default message "Invalid value". -/
def userChecks : List (FieldChain UserBody) :=
  [⟨fun b => b.firstName,
      [⟨existsNonFalsy, "Please provide a value for \"firstName\""⟩]⟩,
   ⟨fun b => b.lastName,
      [⟨existsNonFalsy, "Please provide a value for \"lastName\""⟩]⟩,
   ⟨fun b => b.password,
      [⟨existsNonFalsy, "Please provide a value for \"password\""⟩]⟩,
   ⟨fun b => b.emailAddress,
      [⟨existsNonFalsy, "Invalid value"⟩,
       ⟨fun v => isEmail (v.getD ""),
         "Please provide a value for \"emailAddress\""⟩]⟩]

/-- The POST and PUT /courses validation chains (src/routes/index.js:180-186
and :232-238). -/
def courseChecks : List (FieldChain CourseBody) :=
  [⟨fun b => b.title,
      [⟨existsNonFalsy, "Please provide a value for \"title\""⟩]⟩,
   ⟨fun b => b.description,
      [⟨existsNonFalsy, "Please provide a value for \"description\""⟩]⟩]

/-- GET /users handler body (src/routes/index.js:76-85): the four projected
fields of `req.currentUser`, as the JSON object sent by `res.json`. -/
def userJson (u : UserRec) : List (String × String) :=
  [("id", toString u.id), ("firstName", u.firstName),
   ("lastName", u.lastName), ("emailAddress", u.emailAddress)]

/-- The POST /users handler after validation middleware
(src/routes/index.js:106-156).  `salt` is the random salt `hashSync` draws. -/
def postUsers (db : DB) (salt : String) (body : UserBody) : HOut :=
  let errorMessages := runChecks userChecks body
  if errorMessages.isEmpty then
    match findUserByEmail db (jsTrim (body.emailAddress.getD "")) with
    | some _ => ⟨⟨400, none, .error "User already exists"⟩, db, 1⟩
    | none =>
      let newUser : UserRec :=
        ⟨db.nextUserId, body.firstName.getD "", body.lastName.getD "",
          body.emailAddress.getD "", bcryptHash salt (body.password.getD ""),
          0, 0⟩
      ⟨⟨201, some "/", .empty⟩,
        { db with users := db.users ++ [newUser],
                  nextUserId := db.nextUserId + 1 }, 2⟩
  else
    ⟨⟨400, none, .errors errorMessages⟩, db, 0⟩

/-- Projection used by GET /api/courses. -/
def courseProj (c : CourseRec) : CourseProj :=
  ⟨c.id, c.userId, c.title, c.description, c.estimatedTime, c.materialsNeeded⟩

/-- GET /api/courses handler (src/routes/index.js:165-170). -/
def getCourses (db : DB) : HOut :=
  ⟨⟨200, none, .courseList (db.courses.map courseProj)⟩, db, 1⟩

/-- GET /api/courses/:id handler (src/routes/index.js:173-177);
`res.json(null)` when `findByPk` misses. -/
def getCourse (db : DB) (id : Nat) : HOut :=
  ⟨⟨200, none, .course (db.courses.find? (fun c => c.id == id))⟩, db, 1⟩

/-- The POST /courses handler after authentication and validation middleware
(src/routes/index.js:187-226).  `Course.create(req.body)` with no `userId`
violates the NOT NULL foreign key, so the thrown error is caught by
`asyncHandler` as a 500. -/
def postCourses (db : DB) (body : CourseBody) : HOut :=
  let errorMessages := runChecks courseChecks body
  if errorMessages.isEmpty then
    match db.courses.find? (fun c => c.title == jsTrim (body.title.getD "")) with
    | some _ =>
      ⟨⟨400, none,
          .error ("Course with title \"" ++ body.title.getD ""
            ++ "\" already exists.")⟩, db, 1⟩
    | none =>
      match body.userId with
      | none => ⟨⟨500, none, .dbError⟩, db, 2⟩
      | some uid =>
        let newCourse : CourseRec :=
          ⟨db.nextCourseId, uid, body.title.getD "", body.description.getD "",
            body.estimatedTime, body.materialsNeeded, 0, 0⟩
        ⟨⟨201, some ("/course/" ++ toString db.nextCourseId), .empty⟩,
          { db with courses := db.courses ++ [newCourse],
                    nextCourseId := db.nextCourseId + 1 }, 2⟩
  else
    ⟨⟨400, none, .errors errorMessages⟩, db, 0⟩

/-- `Course.update(req.body, ...)`: every model attribute present in the body
is written over the stored row; absent attributes keep their stored value. -/
def applyUpdate (c : CourseRec) (body : CourseBody) : CourseRec :=
  { c with
    userId := body.userId.getD c.userId,
    title := body.title.getD c.title,
    description := body.description.getD c.description,
    estimatedTime := match body.estimatedTime with
      | some s => some s
      | none => c.estimatedTime,
    materialsNeeded := match body.materialsNeeded with
      | some s => some s
      | none => c.materialsNeeded }

/-- The PUT /courses/:id handler after authentication and validation
middleware (src/routes/index.js:239-275); `currentUser` is the authenticated
user attached by the middleware. -/
def putCourse (db : DB) (currentUser : UserRec) (id : Nat)
    (body : CourseBody) : HOut :=
  let errorMessages := runChecks courseChecks body
  if errorMessages.isEmpty then
    match db.courses.find? (fun c => c.id == id) with
    | some foundCourse =>
      if currentUser.id == foundCourse.userId then
        ⟨⟨204, none, .empty⟩,
          { db with courses :=
              db.courses.map (fun c => if c.id == id then applyUpdate c body else c) }, 2⟩
      else
        ⟨⟨403, none, .error "Users can only edit their own courses."⟩, db, 1⟩
    | none =>
      ⟨⟨400, none, .error ("Course with id: " ++ toString id ++ " not found.")⟩,
        db, 1⟩
  else
    ⟨⟨400, none, .errors errorMessages⟩, db, 0⟩

/-- The DELETE /courses/:id handler after authentication
(src/routes/index.js:281-298). -/
def deleteCourse (db : DB) (currentUser : UserRec) (id : Nat) : HOut :=
  match db.courses.find? (fun c => c.id == id) with
  | some foundCourse =>
    if currentUser.id == foundCourse.userId then
      ⟨⟨204, none, .empty⟩,
        { db with courses := db.courses.filter (fun c => !(c.id == id)) }, 2⟩
    else
      ⟨⟨403, none, .error "Users can only delete their own courses."⟩, db, 1⟩
  | none =>
    ⟨⟨400, none, .error ("Course with id: " ++ toString id ++ " not found.")⟩,
      db, 1⟩

/-- One inbound HTTP request, dispatched by method and path.  `auth` carries
the decoded Basic-Authentication header where the route authenticates;
`salt` is the salt `hashSync` draws inside POST /users. -/
inductive Req where
  | getUsers : Option Credentials → Req
  | postUsers : String → UserBody → Req
  | getCourses : Req
  | getCourse : Nat → Req
  | postCourses : Option Credentials → CourseBody → Req
  | putCourse : Option Credentials → Nat → CourseBody → Req
  | deleteCourse : Option Credentials → Nat → Req
deriving Repr

/-- Pack a handler result behind the authentication middleware: a denied
request gets the middleware's 401 and leaves the store untouched. -/
def withAuth (db : DB) (creds : Option Credentials)
    (k : UserRec → HOut) : HOut :=
  match (authenticateUser db creds).result with
  | .ok u => ⟨(k u).resp, (k u).db, (authenticateUser db creds).reads + (k u).dbOps⟩
  | .denied resp => ⟨resp, db, (authenticateUser db creds).reads⟩

/-- The router (src/routes/index.js): dispatch one request against the
store. -/
def route (db : DB) : Req → HOut
  | .getUsers creds =>
    withAuth db creds (fun u => ⟨⟨200, none, .userView (userJson u)⟩, db, 0⟩)
  | .postUsers salt body => postUsers db salt body
  | .getCourses => getCourses db
  | .getCourse id => getCourse db id
  | .postCourses creds body => withAuth db creds (fun _ => postCourses db body)
  | .putCourse creds id body =>
    withAuth db creds (fun u => putCourse db u id body)
  | .deleteCourse creds id => withAuth db creds (fun u => deleteCourse db u id)

/-- The states the running system can reach from the empty store by any
sequence of requests. -/
inductive Reachable : DB → Prop where
  | init : Reachable DB.init
  | step (db : DB) (r : Req) : Reachable db → Reachable (route db r).db

/-- Structural invariant maintained by every route: auto-increment counters
bound the stored ids, course ids are pairwise distinct, every stored email
passed the email-syntax rule, and stored emails are pairwise distinct. -/
def DBInv (db : DB) : Prop :=
  (∀ u ∈ db.users, u.id < db.nextUserId) ∧
  (∀ u ∈ db.users, isEmail u.emailAddress = true) ∧
  db.users.Pairwise (fun a b => a.emailAddress ≠ b.emailAddress) ∧
  (∀ c ∈ db.courses, c.id < db.nextCourseId) ∧
  db.courses.Pairwise (fun a b => a.id ≠ b.id)

/-- Concrete store with one user (id 1) owning one course (id 1); reachable
from the empty store by one POST /users and one POST /courses. -/
def db2 : DB :=
  ⟨[⟨1, "Ann", "Ba", "a@b.com", bcryptHash "S" "pw", 0, 0⟩],
   [⟨1, 1, "T", "D", none, none, 0, 0⟩], 2, 2⟩

/-- Concrete store with two users: user 1 owns course 1, user 2 owns no
course; reachable by two POST /users and one POST /courses. -/
def db3 : DB :=
  ⟨[⟨1, "Ann", "Ba", "a@b.com", bcryptHash "S" "pw", 0, 0⟩,
    ⟨2, "Cid", "Do", "c@d.com", bcryptHash "R" "pw2", 0, 0⟩],
   [⟨1, 1, "T", "D", none, none, 0, 0⟩], 3, 2⟩

/-! Helper lemmas. -/

theorem dropWhile_of_all_false {p : Char → Bool} :
    ∀ (l : List Char), (∀ c ∈ l, p c = false) → l.dropWhile p = l := by
  intro l h
  cases l with
  | nil => rfl
  | cons a t => simp [List.dropWhile, h a (by simp)]

theorem jsTrim_eq_self {s : String}
    (h : ∀ c ∈ s.data, c.isWhitespace = false) : jsTrim s = s := by
  unfold jsTrim
  rw [dropWhile_of_all_false s.data h]
  rw [dropWhile_of_all_false s.data.reverse (fun c hc => h c (List.mem_reverse.mp hc))]
  rw [List.reverse_reverse]

theorem isEmail_no_ws {s : String} (h : isEmail s = true) :
    ∀ c ∈ s.data, c.isWhitespace = false := by
  unfold isEmail at h
  simp only [Bool.and_eq_true, List.all_eq_true, Bool.not_eq_true'] at h
  exact h.2

theorem isEmail_jsTrim_eq {s : String} (h : isEmail s = true) : jsTrim s = s :=
  jsTrim_eq_self (isEmail_no_ws h)

theorem bcryptHash_ne_plain (salt p : String) : bcryptHash salt p ≠ p := by
  intro h
  have hdata : (bcryptHash salt p).data = p.data := by rw [h]
  rw [bcryptHash, String.data_append, String.data_append,
    String.data_append] at hdata
  have hlen := congrArg List.length hdata
  simp at hlen
  omega

/-- Explicit evaluation of the POST /users validation chains: one message per
failing validator, in declaration order (firstName, lastName, password, then
the two emailAddress validators). -/
theorem runChecks_user_eval (b : UserBody) :
    runChecks userChecks b =
      (if existsNonFalsy b.firstName then []
        else ["Please provide a value for \"firstName\""])
      ++ (if existsNonFalsy b.lastName then []
        else ["Please provide a value for \"lastName\""])
      ++ (if existsNonFalsy b.password then []
        else ["Please provide a value for \"password\""])
      ++ (if existsNonFalsy b.emailAddress then [] else ["Invalid value"])
      ++ (if isEmail (b.emailAddress.getD "") then []
        else ["Please provide a value for \"emailAddress\""]) := by
  simp only [runChecks, userChecks, runValidators, List.map_cons, List.map_nil,
    List.filter_cons, List.filter_nil, List.flatten]
  cases existsNonFalsy b.firstName <;> cases existsNonFalsy b.lastName
    <;> cases existsNonFalsy b.password <;> cases existsNonFalsy b.emailAddress
    <;> cases isEmail (b.emailAddress.getD "") <;> simp

/-- Explicit evaluation of the POST and PUT /courses validation chains. -/
theorem runChecks_course_eval (b : CourseBody) :
    runChecks courseChecks b =
      (if existsNonFalsy b.title then []
        else ["Please provide a value for \"title\""])
      ++ (if existsNonFalsy b.description then []
        else ["Please provide a value for \"description\""]) := by
  simp only [runChecks, courseChecks, runValidators, List.map_cons, List.map_nil,
    List.filter_cons, List.filter_nil, List.flatten]
  cases existsNonFalsy b.title <;> cases existsNonFalsy b.description <;> simp

theorem userChecks_pass {b : UserBody} (h : runChecks userChecks b = []) :
    existsNonFalsy b.firstName = true ∧ existsNonFalsy b.lastName = true ∧
    existsNonFalsy b.password = true ∧ existsNonFalsy b.emailAddress = true ∧
    isEmail (b.emailAddress.getD "") = true := by
  rw [runChecks_user_eval] at h
  cases h1 : existsNonFalsy b.firstName <;> cases h2 : existsNonFalsy b.lastName
    <;> cases h3 : existsNonFalsy b.password
    <;> cases h4 : existsNonFalsy b.emailAddress
    <;> cases h5 : isEmail (b.emailAddress.getD "") <;> simp_all

theorem courseChecks_pass {b : CourseBody} (h : runChecks courseChecks b = []) :
    existsNonFalsy b.title = true ∧ existsNonFalsy b.description = true := by
  rw [runChecks_course_eval] at h
  cases h1 : existsNonFalsy b.title <;> cases h2 : existsNonFalsy b.description
    <;> simp_all

theorem dbInv_init : DBInv DB.init := by
  simp [DBInv, DB.init]

theorem postUsers_dbInv {db : DB} (hinv : DBInv db) (salt : String)
    (body : UserBody) : DBInv (postUsers db salt body).db := by
  obtain ⟨hub, hmail, hne, hcb, hcne⟩ := hinv
  unfold postUsers
  cases hval : runChecks userChecks body with
  | cons a t => simpa [hval] using ⟨hub, hmail, hne, hcb, hcne⟩
  | nil =>
    obtain ⟨-, -, -, -, hem⟩ := userChecks_pass hval
    cases hfind : findUserByEmail db (jsTrim (body.emailAddress.getD "")) with
    | some u => simpa [hval, hfind] using ⟨hub, hmail, hne, hcb, hcne⟩
    | none =>
      rw [isEmail_jsTrim_eq hem] at hfind
      rw [findUserByEmail, List.find?_eq_none] at hfind
      simp only [List.isEmpty_nil, if_true]
      refine ⟨?_, ?_, ?_, hcb, hcne⟩
      · intro u hu
        simp only [List.mem_append, List.mem_singleton] at hu
        rcases hu with hu | hu
        · exact Nat.lt_succ_of_lt (hub u hu)
        · subst hu; exact Nat.lt_succ_self _
      · intro u hu
        simp only [List.mem_append, List.mem_singleton] at hu
        rcases hu with hu | hu
        · exact hmail u hu
        · subst hu; exact hem
      · rw [List.pairwise_append]
        refine ⟨hne, by simp, ?_⟩
        intro a ha b hb
        simp only [List.mem_singleton] at hb
        subst hb
        intro hcontra
        exact absurd (by simpa using hcontra) (by simpa using hfind a ha)

theorem postCourses_dbInv {db : DB} (hinv : DBInv db) (body : CourseBody) :
    DBInv (postCourses db body).db := by
  obtain ⟨hub, hmail, hne, hcb, hcne⟩ := hinv
  unfold postCourses
  cases hval : runChecks courseChecks body with
  | cons a t => simpa using ⟨hub, hmail, hne, hcb, hcne⟩
  | nil =>
    cases hfind : db.courses.find? (fun c => c.title == jsTrim (body.title.getD "")) with
    | some c => simpa using ⟨hub, hmail, hne, hcb, hcne⟩
    | none =>
      cases hu : body.userId with
      | none => simpa using ⟨hub, hmail, hne, hcb, hcne⟩
      | some uid =>
        simp only [List.isEmpty_nil, if_true]
        refine ⟨hub, hmail, hne, ?_, ?_⟩
        · intro c hc
          simp only [List.mem_append, List.mem_singleton] at hc
          rcases hc with hc | hc
          · exact Nat.lt_succ_of_lt (hcb c hc)
          · subst hc; exact Nat.lt_succ_self _
        · rw [List.pairwise_append]
          refine ⟨hcne, by simp, ?_⟩
          intro a ha b hb
          simp only [List.mem_singleton] at hb
          subst hb
          exact Nat.ne_of_lt (hcb a ha)

theorem applyUpdate_id (c : CourseRec) (body : CourseBody) :
    (applyUpdate c body).id = c.id := rfl

theorem putCourse_dbInv {db : DB} (hinv : DBInv db) (u : UserRec) (id : Nat)
    (body : CourseBody) : DBInv (putCourse db u id body).db := by
  obtain ⟨hub, hmail, hne, hcb, hcne⟩ := hinv
  unfold putCourse
  cases hval : runChecks courseChecks body with
  | cons a t => simpa using ⟨hub, hmail, hne, hcb, hcne⟩
  | nil =>
    cases hfind : db.courses.find? (fun c => c.id == id) with
    | none => simpa using ⟨hub, hmail, hne, hcb, hcne⟩
    | some fc =>
      cases hown : u.id == fc.userId with
      | false => simpa [hown] using ⟨hub, hmail, hne, hcb, hcne⟩
      | true =>
        simp only [hown, List.isEmpty_nil, if_true]
        refine ⟨hub, hmail, hne, ?_, ?_⟩
        · intro c hc
          obtain ⟨c0, hc0, hceq⟩ := List.mem_map.mp hc
          have hid : c.id = c0.id := by
            subst hceq
            by_cases hif : c0.id == id <;> simp [hif, applyUpdate_id]
          rw [hid]
          exact hcb c0 hc0
        · have hpres : ∀ c0 : CourseRec,
              ((fun c => if c.id == id then applyUpdate c body else c) c0).id
                = c0.id := by
            intro c0
            by_cases hif : c0.id == id <;> simp [hif, applyUpdate_id]
          exact List.Pairwise.map _
            (fun a b hab => by rw [hpres a, hpres b]; exact hab) hcne

theorem deleteCourse_dbInv {db : DB} (hinv : DBInv db) (u : UserRec)
    (id : Nat) : DBInv (deleteCourse db u id).db := by
  obtain ⟨hub, hmail, hne, hcb, hcne⟩ := hinv
  unfold deleteCourse
  cases hfind : db.courses.find? (fun c => c.id == id) with
  | none => simpa using ⟨hub, hmail, hne, hcb, hcne⟩
  | some fc =>
    cases hown : u.id == fc.userId with
    | false => simpa [hown] using ⟨hub, hmail, hne, hcb, hcne⟩
    | true =>
      simp only [hown, if_true]
      refine ⟨hub, hmail, hne, ?_, ?_⟩
      · intro c hc
        exact hcb c (List.mem_of_mem_filter hc)
      · exact List.Pairwise.sublist (List.filter_sublist _) hcne

theorem withAuth_dbInv {db : DB} (hinv : DBInv db) (creds : Option Credentials)
    (k : UserRec → HOut) (hk : ∀ u, DBInv (k u).db) :
    DBInv (withAuth db creds k).db := by
  unfold withAuth
  cases (authenticateUser db creds).result with
  | ok u => exact hk u
  | denied resp => exact hinv

theorem route_dbInv {db : DB} (hinv : DBInv db) (r : Req) :
    DBInv (route db r).db := by
  cases r with
  | getUsers creds => exact withAuth_dbInv hinv creds _ (fun u => hinv)
  | postUsers salt body => exact postUsers_dbInv hinv salt body
  | getCourses => exact hinv
  | getCourse id => exact hinv
  | postCourses creds body =>
    exact withAuth_dbInv hinv creds _ (fun u => postCourses_dbInv hinv body)
  | putCourse creds id body =>
    exact withAuth_dbInv hinv creds _ (fun u => putCourse_dbInv hinv u id body)
  | deleteCourse creds id =>
    exact withAuth_dbInv hinv creds _ (fun u => deleteCourse_dbInv hinv u id)

theorem reachable_dbInv {db : DB} (h : Reachable db) : DBInv db := by
  induction h with
  | init => exact dbInv_init
  | step db r hr ih => exact route_dbInv ih r

theorem db2_reachable : Reachable db2 := by
  have h1 := Reachable.step DB.init
    (Req.postUsers "S" ⟨some "Ann", some "Ba", some "a@b.com", some "pw"⟩)
    Reachable.init
  have h2 := Reachable.step _
    (Req.postCourses (some ⟨"a@b.com", "pw"⟩) ⟨some 1, some "T", some "D", none, none⟩) h1
  have heq : (route (route DB.init
      (Req.postUsers "S" ⟨some "Ann", some "Ba", some "a@b.com", some "pw"⟩)).db
      (Req.postCourses (some ⟨"a@b.com", "pw"⟩)
        ⟨some 1, some "T", some "D", none, none⟩)).db = db2 := by decide
  rw [heq] at h2
  exact h2

theorem db3_reachable : Reachable db3 := by
  have h1 := Reachable.step DB.init
    (Req.postUsers "S" ⟨some "Ann", some "Ba", some "a@b.com", some "pw"⟩)
    Reachable.init
  have h2 := Reachable.step _
    (Req.postUsers "R" ⟨some "Cid", some "Do", some "c@d.com", some "pw2"⟩) h1
  have h3 := Reachable.step _
    (Req.postCourses (some ⟨"a@b.com", "pw"⟩)
      ⟨some 1, some "T", some "D", none, none⟩) h2
  have heq : (route (route (route DB.init
      (Req.postUsers "S" ⟨some "Ann", some "Ba", some "a@b.com", some "pw"⟩)).db
      (Req.postUsers "R" ⟨some "Cid", some "Do", some "c@d.com", some "pw2"⟩)).db
      (Req.postCourses (some ⟨"a@b.com", "pw"⟩)
        ⟨some 1, some "T", some "D", none, none⟩)).db = db3 := by decide
  rw [heq] at h3
  exact h3

/-- C4: every failure of the authentication middleware — missing header,
unknown username, password mismatch — yields the same HTTP 401 response with
body message "Access Denied"; the specific cause is written only to the
server-side log. -/
theorem c4_auth_failures_uniform_response (db : DB) (creds : Option Credentials)
    (resp : Response) (h : (authenticateUser db creds).result = .denied resp) :
    resp = ⟨401, none, .message "Access Denied"⟩ ∧
    (authenticateUser db creds).log ≠ none := by
  unfold authenticateUser at h ⊢
  cases creds with
  | none => simp_all
  | some c =>
    cases hf : findUserByEmail db c.name with
    | none => simp_all
    | some user =>
      cases hb : bcryptCompare c.pass user.password with
      | false => simp_all
      | true => simp_all

/-- C4 witness: the missing-header case at the empty store. -/
theorem c4_auth_failures_uniform_response_witness :
    (⟨401, none, .message "Access Denied"⟩ : Response) =
      ⟨401, none, .message "Access Denied"⟩ ∧
    (authenticateUser DB.init none).log ≠ none :=
  c4_auth_failures_uniform_response DB.init none
    ⟨401, none, .message "Access Denied"⟩ (by decide)

/-- C8 counterexample: a request without a Basic-Authentication header is
processed by the middleware with zero persistence reads, refuting "exactly
one persistence read" for every processed request. -/
theorem c8_no_header_zero_reads_counterexample :
    (authenticateUser DB.init none).reads = 0 ∧
    (authenticateUser DB.init none).reads ≠ 1 := by decide

/-- C8 amended: the middleware performs at most one persistence read — exactly
one when the header decodes to credentials and zero when it is absent — and
has no effect on the store (shown on the GET /users route, whose handler only
reads the attached identity). -/
theorem c8_auth_reads_amended (db : DB) (creds : Option Credentials) :
    (authenticateUser db creds).reads = (if creds.isSome then 1 else 0) ∧
    (authenticateUser db creds).reads ≤ 1 ∧
    (route db (.getUsers creds)).db = db := by
  have hreads : (authenticateUser db creds).reads = (if creds.isSome then 1 else 0) := by
    cases creds with
    | none => rfl
    | some c =>
      cases hf : findUserByEmail db c.name with
      | none => simp [authenticateUser, hf]
      | some user =>
        cases hb : bcryptCompare c.pass user.password <;>
          simp [authenticateUser, hf, hb]
  refine ⟨hreads, ?_, ?_⟩
  · rw [hreads]
    cases creds <;> simp
  · simp only [route, withAuth]
    cases (authenticateUser db creds).result <;> rfl

/-- C10: an authenticated GET /users returns exactly the four fields id,
firstName, lastName, emailAddress of the authenticated user; the password
hash and the timestamps are not among the returned fields. -/
theorem c10_get_users_projection (db : DB) (creds : Option Credentials)
    (u : UserRec) (hauth : (authenticateUser db creds).result = .ok u) :
    (route db (.getUsers creds)).resp = ⟨200, none, .userView (userJson u)⟩ ∧
    userJson u = [("id", toString u.id), ("firstName", u.firstName),
      ("lastName", u.lastName), ("emailAddress", u.emailAddress)] ∧
    (userJson u).map Prod.fst = ["id", "firstName", "lastName", "emailAddress"] ∧
    "password" ∉ (userJson u).map Prod.fst ∧
    "createdAt" ∉ (userJson u).map Prod.fst ∧
    "updatedAt" ∉ (userJson u).map Prod.fst := by
  refine ⟨?_, rfl, by simp [userJson], by simp [userJson], by simp [userJson],
    by simp [userJson]⟩
  simp only [route, withAuth, hauth]

/-- C10 witness: user 1 of the two-user store. -/
theorem c10_get_users_projection_witness :
    (route db3 (.getUsers (some ⟨"a@b.com", "pw"⟩))).resp =
      ⟨200, none, .userView
        (userJson ⟨1, "Ann", "Ba", "a@b.com", bcryptHash "S" "pw", 0, 0⟩)⟩ ∧
    userJson ⟨1, "Ann", "Ba", "a@b.com", bcryptHash "S" "pw", 0, 0⟩ =
      [("id", toString (1 : Nat)), ("firstName", "Ann"), ("lastName", "Ba"),
        ("emailAddress", "a@b.com")] ∧
    (userJson ⟨1, "Ann", "Ba", "a@b.com", bcryptHash "S" "pw", 0, 0⟩).map Prod.fst
      = ["id", "firstName", "lastName", "emailAddress"] ∧
    "password" ∉ (userJson ⟨1, "Ann", "Ba", "a@b.com", bcryptHash "S" "pw", 0, 0⟩).map Prod.fst ∧
    "createdAt" ∉ (userJson ⟨1, "Ann", "Ba", "a@b.com", bcryptHash "S" "pw", 0, 0⟩).map Prod.fst ∧
    "updatedAt" ∉ (userJson ⟨1, "Ann", "Ba", "a@b.com", bcryptHash "S" "pw", 0, 0⟩).map Prod.fst :=
  c10_get_users_projection db3 (some ⟨"a@b.com", "pw"⟩)
    ⟨1, "Ann", "Ba", "a@b.com", bcryptHash "S" "pw", 0, 0⟩ (by decide)

/-- C1 counterexample: an authenticated POST /courses with the fresh title
"TX" but no description is rejected by validation with 400; the handler never
persists and never answers 201, refuting the claim for requests whose body
fails validation. -/
theorem c1_validation_preempts_counterexample :
    db3.courses.find? (fun c => c.title == jsTrim "TX") = none ∧
    (authenticateUser db3 (some ⟨"a@b.com", "pw"⟩)).result =
      .ok ⟨1, "Ann", "Ba", "a@b.com", bcryptHash "S" "pw", 0, 0⟩ ∧
    route db3 (.postCourses (some ⟨"a@b.com", "pw"⟩)
        ⟨some 1, some "TX", none, none, none⟩) =
      ⟨⟨400, none, .errors ["Please provide a value for \"description\""]⟩,
        db3, 1⟩ ∧
    (route db3 (.postCourses (some ⟨"a@b.com", "pw"⟩)
        ⟨some 1, some "TX", none, none, none⟩)).resp.status ≠ 201 := by
  refine ⟨by decide, by decide, ?_, by decide⟩
  decide

/-- C1 amended: an authenticated POST /courses whose body passes the
title/description validation, whose trimmed title matches no stored course,
and whose body supplies a `userId` persists the request body verbatim as the
new course — its `userId` is the body's `userId` (here `uid`, unrelated to
the authenticated user `u`) — and answers 201 with Location `/course/<newId>`
and an empty body. -/
theorem c1_post_courses_persists_body (db : DB) (creds : Option Credentials)
    (u : UserRec) (body : CourseBody) (uid : Nat)
    (hauth : (authenticateUser db creds).result = .ok u)
    (hval : runChecks courseChecks body = [])
    (hfresh : db.courses.find?
      (fun c => c.title == jsTrim (body.title.getD "")) = none)
    (huid : body.userId = some uid) :
    (route db (.postCourses creds body)).resp =
      ⟨201, some ("/course/" ++ toString db.nextCourseId), .empty⟩ ∧
    (route db (.postCourses creds body)).db.courses =
      db.courses ++ [⟨db.nextCourseId, uid, body.title.getD "",
        body.description.getD "", body.estimatedTime, body.materialsNeeded,
        0, 0⟩] := by
  simp [route, withAuth, hauth, postCourses, hval, hfresh, huid]

/-- C1 witness: user 2 authenticates but posts a course whose body says
`userId = 7`; the stored course belongs to user 7. -/
theorem c1_post_courses_persists_body_witness :
    (route db3 (.postCourses (some ⟨"c@d.com", "pw2"⟩)
        ⟨some 7, some "T2", some "D2", none, none⟩)).resp =
      ⟨201, some ("/course/" ++ toString db3.nextCourseId), .empty⟩ ∧
    (route db3 (.postCourses (some ⟨"c@d.com", "pw2"⟩)
        ⟨some 7, some "T2", some "D2", none, none⟩)).db.courses =
      db3.courses ++ [⟨db3.nextCourseId, 7, "T2", "D2", none, none, 0, 0⟩] :=
  c1_post_courses_persists_body db3 (some ⟨"c@d.com", "pw2"⟩)
    ⟨2, "Cid", "Do", "c@d.com", bcryptHash "R" "pw2", 0, 0⟩
    ⟨some 7, some "T2", some "D2", none, none⟩ 7
    (by decide) (by decide) (by decide) rfl

/-- C7: a valid POST /users payload with a fresh email creates the user,
answers 201 with Location "/" and empty body, and the stored password is the
salted hash, never the submitted plaintext. -/
theorem c7_create_user_stores_hash (db : DB) (salt : String) (body : UserBody)
    (hval : runChecks userChecks body = [])
    (hfresh : findUserByEmail db (jsTrim (body.emailAddress.getD "")) = none) :
    (route db (.postUsers salt body)).resp = ⟨201, some "/", .empty⟩ ∧
    (route db (.postUsers salt body)).db.users =
      db.users ++ [⟨db.nextUserId, body.firstName.getD "",
        body.lastName.getD "", body.emailAddress.getD "",
        bcryptHash salt (body.password.getD ""), 0, 0⟩] ∧
    bcryptHash salt (body.password.getD "") ≠ body.password.getD "" := by
  refine ⟨?_, ?_, bcryptHash_ne_plain salt _⟩ <;>
    simp [route, postUsers, hval, hfresh]

/-- C7 witness: creating a third user in the two-user store. -/
theorem c7_create_user_stores_hash_witness :
    (route db3 (.postUsers "Q" ⟨some "Eve", some "Fu", some "e@f.com",
        some "pw3"⟩)).resp = ⟨201, some "/", .empty⟩ ∧
    (route db3 (.postUsers "Q" ⟨some "Eve", some "Fu", some "e@f.com",
        some "pw3"⟩)).db.users =
      db3.users ++ [⟨db3.nextUserId, "Eve", "Fu", "e@f.com",
        bcryptHash "Q" "pw3", 0, 0⟩] ∧
    bcryptHash "Q" "pw3" ≠ "pw3" :=
  c7_create_user_stores_hash db3 "Q"
    ⟨some "Eve", some "Fu", some "e@f.com", some "pw3"⟩ (by decide) (by decide)

/-- C5 counterexample: the submitted (trimmed) email "a@b.com" matches the
stored user's email, yet because `firstName` is missing the handler answers
the validation 400, not `{error: "User already exists"}`. -/
theorem c5_validation_preempts_counterexample :
    jsTrim "a@b.com" = "a@b.com" ∧
    (db2.users.map (fun u => u.emailAddress)) = ["a@b.com"] ∧
    (route db2 (.postUsers "S2" ⟨none, some "L", some "a@b.com", some "x"⟩)).resp
      = ⟨400, none, .errors ["Please provide a value for \"firstName\""]⟩ ∧
    (route db2 (.postUsers "S2" ⟨none, some "L", some "a@b.com", some "x"⟩)).resp.body
      ≠ .error "User already exists" := by decide

/-- C5 amended: a POST /users whose payload passes validation and whose
trimmed email matches a stored user's email answers 400 with
`{error: "User already exists"}` and leaves the store unchanged. -/
theorem c5_duplicate_email_rejected (db : DB) (salt : String) (body : UserBody)
    (u : UserRec) (hval : runChecks userChecks body = [])
    (hdup : findUserByEmail db (jsTrim (body.emailAddress.getD "")) = some u) :
    (route db (.postUsers salt body)).resp =
      ⟨400, none, .error "User already exists"⟩ ∧
    (route db (.postUsers salt body)).db = db := by
  simp [route, postUsers, hval, hdup]

/-- C5 witness: a fully valid payload resubmitting the stored email. -/
theorem c5_duplicate_email_rejected_witness :
    (route db2 (.postUsers "S2" ⟨some "F", some "L", some "a@b.com",
        some "pw9"⟩)).resp = ⟨400, none, .error "User already exists"⟩ ∧
    (route db2 (.postUsers "S2" ⟨some "F", some "L", some "a@b.com",
        some "pw9"⟩)).db = db2 :=
  c5_duplicate_email_rejected db2 "S2"
    ⟨some "F", some "L", some "a@b.com", some "pw9"⟩
    ⟨1, "Ann", "Ba", "a@b.com", bcryptHash "S" "pw", 0, 0⟩
    (by decide) (by decide)

/-- C3 counterexample: user 2 (not the owner) sends a PUT for course 1 with a
missing title; validation runs before the ownership check, so the response is
the validation 400, not 403. -/
theorem c3_validation_preempts_counterexample :
    Reachable db3 ∧
    (authenticateUser db3 (some ⟨"c@d.com", "pw2"⟩)).result =
      .ok ⟨2, "Cid", "Do", "c@d.com", bcryptHash "R" "pw2", 0, 0⟩ ∧
    (db3.courses.find? (fun c => c.id == 1)).map (fun c => c.userId) = some 1 ∧
    (route db3 (.putCourse (some ⟨"c@d.com", "pw2"⟩) 1
        ⟨none, none, some "D9", none, none⟩)).resp =
      ⟨400, none, .errors ["Please provide a value for \"title\""]⟩ ∧
    (route db3 (.putCourse (some ⟨"c@d.com", "pw2"⟩) 1
        ⟨none, none, some "D9", none, none⟩)).resp.status ≠ 403 :=
  ⟨db3_reachable, by decide, by decide, by decide, by decide⟩

/-- C3 amended: an authenticated PUT whose body passes validation, or any
authenticated DELETE, against an existing course owned by a different user
answers 403 with the route's ownership message and leaves the store
unchanged. -/
theorem c3_foreign_course_403 (db : DB) (creds : Option Credentials)
    (u : UserRec) (idt : Nat) (body : CourseBody) (fc : CourseRec)
    (hauth : (authenticateUser db creds).result = .ok u)
    (hfound : db.courses.find? (fun c => c.id == idt) = some fc)
    (hown : u.id ≠ fc.userId)
    (hval : runChecks courseChecks body = []) :
    (route db (.putCourse creds idt body)).resp =
      ⟨403, none, .error "Users can only edit their own courses."⟩ ∧
    (route db (.putCourse creds idt body)).db = db ∧
    (route db (.deleteCourse creds idt)).resp =
      ⟨403, none, .error "Users can only delete their own courses."⟩ ∧
    (route db (.deleteCourse creds idt)).db = db := by
  have hbe : (u.id == fc.userId) = false := by
    simp [hown]
  refine ⟨?_, ?_, ?_, ?_⟩ <;>
    simp [route, withAuth, hauth, putCourse, deleteCourse, hval, hfound, hbe]

/-- C3 witness: user 2 PUTs and DELETEs course 1 (owned by user 1) with a
valid body. -/
theorem c3_foreign_course_403_witness :
    (route db3 (.putCourse (some ⟨"c@d.com", "pw2"⟩) 1
        ⟨none, some "T9", some "D9", none, none⟩)).resp =
      ⟨403, none, .error "Users can only edit their own courses."⟩ ∧
    (route db3 (.putCourse (some ⟨"c@d.com", "pw2"⟩) 1
        ⟨none, some "T9", some "D9", none, none⟩)).db = db3 ∧
    (route db3 (.deleteCourse (some ⟨"c@d.com", "pw2"⟩) 1)).resp =
      ⟨403, none, .error "Users can only delete their own courses."⟩ ∧
    (route db3 (.deleteCourse (some ⟨"c@d.com", "pw2"⟩) 1)).db = db3 :=
  c3_foreign_course_403 db3 (some ⟨"c@d.com", "pw2"⟩)
    ⟨2, "Cid", "Do", "c@d.com", bcryptHash "R" "pw2", 0, 0⟩ 1
    ⟨none, some "T9", some "D9", none, none⟩ ⟨1, 1, "T", "D", none, none, 0, 0⟩
    (by decide) (by decide) (by decide) (by decide)

/-- C6: in every reachable store, no two user rows share an email address. -/
theorem c6_email_globally_unique (db : DB) (h : Reachable db) :
    db.users.Pairwise (fun a b => a.emailAddress ≠ b.emailAddress) :=
  (reachable_dbInv h).2.2.1

/-- C6 witness: the reachable two-user store. -/
theorem c6_email_globally_unique_witness :
    db3.users.Pairwise (fun a b => a.emailAddress ≠ b.emailAddress) :=
  c6_email_globally_unique db3 db3_reachable

/-- C9: when validation fails, POST /users (and, after authentication,
POST /courses) answers 400 with the messages of every failing validator in
field declaration order, the store is unchanged, and the handler issues no
persistence call (`dbOps` is 0 for POST /users and exactly the middleware's
reads for POST /courses).  The last two conjuncts characterise the reported
list: one message per failing validator, concatenated in declaration
order. -/
theorem c9_validation_rejects_with_all_messages (db : DB) (salt : String)
    (bodyU : UserBody) (creds : Option Credentials) (u : UserRec)
    (bodyC : CourseBody)
    (hu : runChecks userChecks bodyU ≠ [])
    (hauth : (authenticateUser db creds).result = .ok u)
    (hc : runChecks courseChecks bodyC ≠ []) :
    route db (.postUsers salt bodyU) =
      ⟨⟨400, none, .errors (runChecks userChecks bodyU)⟩, db, 0⟩ ∧
    route db (.postCourses creds bodyC) =
      ⟨⟨400, none, .errors (runChecks courseChecks bodyC)⟩, db,
        (authenticateUser db creds).reads⟩ ∧
    (∀ b : UserBody, runChecks userChecks b =
      (if existsNonFalsy b.firstName then []
        else ["Please provide a value for \"firstName\""])
      ++ (if existsNonFalsy b.lastName then []
        else ["Please provide a value for \"lastName\""])
      ++ (if existsNonFalsy b.password then []
        else ["Please provide a value for \"password\""])
      ++ (if existsNonFalsy b.emailAddress then [] else ["Invalid value"])
      ++ (if isEmail (b.emailAddress.getD "") then []
        else ["Please provide a value for \"emailAddress\""])) ∧
    (∀ b : CourseBody, runChecks courseChecks b =
      (if existsNonFalsy b.title then []
        else ["Please provide a value for \"title\""])
      ++ (if existsNonFalsy b.description then []
        else ["Please provide a value for \"description\""])) := by
  refine ⟨?_, ?_, runChecks_user_eval, runChecks_course_eval⟩
  · cases hval : runChecks userChecks bodyU with
    | nil => exact absurd hval hu
    | cons a t => simp [route, postUsers, hval]
  · cases hval : runChecks courseChecks bodyC with
    | nil => exact absurd hval hc
    | cons a t => simp [route, withAuth, hauth, postCourses, hval]

/-- C9 witness: empty bodies fail every rule; every message is reported in
declaration order. -/
theorem c9_validation_rejects_with_all_messages_witness :
    route db3 (.postUsers "S9" ⟨none, none, none, none⟩) =
      ⟨⟨400, none, .errors (runChecks userChecks ⟨none, none, none, none⟩)⟩,
        db3, 0⟩ ∧
    route db3 (.postCourses (some ⟨"a@b.com", "pw"⟩)
        ⟨none, none, none, none, none⟩) =
      ⟨⟨400, none,
          .errors (runChecks courseChecks ⟨none, none, none, none, none⟩)⟩,
        db3, (authenticateUser db3 (some ⟨"a@b.com", "pw"⟩)).reads⟩ ∧
    (∀ b : UserBody, runChecks userChecks b =
      (if existsNonFalsy b.firstName then []
        else ["Please provide a value for \"firstName\""])
      ++ (if existsNonFalsy b.lastName then []
        else ["Please provide a value for \"lastName\""])
      ++ (if existsNonFalsy b.password then []
        else ["Please provide a value for \"password\""])
      ++ (if existsNonFalsy b.emailAddress then [] else ["Invalid value"])
      ++ (if isEmail (b.emailAddress.getD "") then []
        else ["Please provide a value for \"emailAddress\""])) ∧
    (∀ b : CourseBody, runChecks courseChecks b =
      (if existsNonFalsy b.title then []
        else ["Please provide a value for \"title\""])
      ++ (if existsNonFalsy b.description then []
        else ["Please provide a value for \"description\""])) :=
  c9_validation_rejects_with_all_messages db3 "S9" ⟨none, none, none, none⟩
    (some ⟨"a@b.com", "pw"⟩) ⟨1, "Ann", "Ba", "a@b.com", bcryptHash "S" "pw", 0, 0⟩
    ⟨none, none, none, none, none⟩ (by decide) (by decide) (by decide)

/-- C2 counterexample: in the reachable store db2, course 1 is owned by
user 1; a PUT /courses/1 by that owner whose body carries `userId: 2`
rewrites the stored owner to 2 — an operation of the system changes an
existing course's `userId`. -/
theorem c2_put_transfers_owner_counterexample :
    Reachable db2 ∧
    (db2.courses.find? (fun c => c.id == 1)).map (fun c => c.userId) = some 1 ∧
    ((route db2 (.putCourse (some ⟨"a@b.com", "pw"⟩) 1
        ⟨some 2, some "T", some "D", none, none⟩)).db.courses.find?
        (fun c => c.id == 1)).map (fun c => c.userId) = some 2 ∧
    (route db2 (.putCourse (some ⟨"a@b.com", "pw"⟩) 1
        ⟨some 2, some "T", some "D", none, none⟩)).resp.status = 204 :=
  ⟨db2_reachable, by decide, by decide, by decide⟩

theorem pairwise_id_inj {l : List CourseRec}
    (hp : l.Pairwise (fun a b => a.id ≠ b.id)) :
    ∀ a ∈ l, ∀ b ∈ l, a.id = b.id → a = b := by
  induction l with
  | nil => intro a ha; exact absurd ha (List.not_mem_nil a)
  | cons x t ih =>
    rw [List.pairwise_cons] at hp
    intro a ha b hb heq
    rcases List.mem_cons.mp ha with ha1 | ha1 <;>
      rcases List.mem_cons.mp hb with hb1 | hb1
    · rw [ha1, hb1]
    · rw [ha1] at heq
      exact absurd heq (hp.1 b hb1)
    · rw [hb1] at heq
      exact absurd heq.symm (hp.1 a ha1)
    · exact ih hp.2 a ha1 b hb1 heq

theorem postUsers_courses_eq (db : DB) (salt : String) (b : UserBody) :
    (postUsers db salt b).db.courses = db.courses := by
  unfold postUsers
  cases hval : runChecks userChecks b with
  | cons a t => simp
  | nil =>
    cases hfind : findUserByEmail db (jsTrim (b.emailAddress.getD "")) with
    | some u => simp
    | none => simp

theorem postCourses_courses_cases (db : DB) (b : CourseBody) :
    (postCourses db b).db.courses = db.courses ∨
    ∃ nc : CourseRec, nc.id = db.nextCourseId ∧
      (postCourses db b).db.courses = db.courses ++ [nc] := by
  unfold postCourses
  cases hval : runChecks courseChecks b with
  | cons a t => left; simp
  | nil =>
    cases hfind : db.courses.find?
        (fun c => c.title == jsTrim (b.title.getD "")) with
    | some c => left; simp
    | none =>
      cases hu : b.userId with
      | none => left; simp
      | some uid =>
        right
        exact ⟨⟨db.nextCourseId, uid, b.title.getD "", b.description.getD "",
          b.estimatedTime, b.materialsNeeded, 0, 0⟩, rfl, by simp⟩

theorem applyUpdate_userId_of_none {b : CourseBody} (hb : b.userId = none)
    (c : CourseRec) : (applyUpdate c b).userId = c.userId := by
  simp [applyUpdate, hb]

theorem putCourse_courses_cases (db : DB) (u : UserRec) (i : Nat)
    (b : CourseBody) :
    (putCourse db u i b).db.courses = db.courses ∨
    (putCourse db u i b).db.courses =
      db.courses.map (fun c0 => if c0.id == i then applyUpdate c0 b else c0) := by
  unfold putCourse
  cases hval : runChecks courseChecks b with
  | cons a t => left; simp
  | nil =>
    cases hfind : db.courses.find? (fun c => c.id == i) with
    | none => left; simp
    | some fc =>
      cases hown : u.id == fc.userId with
      | false => left; simp [hown]
      | true => right; simp [hown]

theorem deleteCourse_courses_cases (db : DB) (u : UserRec) (i : Nat) :
    (deleteCourse db u i).db.courses = db.courses ∨
    (deleteCourse db u i).db.courses =
      db.courses.filter (fun c => !(c.id == i)) := by
  unfold deleteCourse
  cases hfind : db.courses.find? (fun c => c.id == i) with
  | none => left; simp
  | some fc =>
    cases hown : u.id == fc.userId with
    | false => left; simp [hown]
    | true => right; simp [hown]

/-- C2 amended: in any reachable store, every operation except a
PUT /courses/:id whose body itself supplies a `userId` preserves the owning
`userId` of every stored course (matching rows tracked by course id). -/
theorem c2_owner_fixed_amended (db : DB) (r : Req) (c c2 : CourseRec)
    (hdb : Reachable db)
    (hnp : ∀ creds i b, r = Req.putCourse creds i b → b.userId = none)
    (hc : c ∈ db.courses) (hc2 : c2 ∈ (route db r).db.courses)
    (hid : c2.id = c.id) : c2.userId = c.userId := by
  obtain ⟨-, -, -, hcb, hcne⟩ := reachable_dbInv hdb
  have hinj := pairwise_id_inj hcne
  have same : ∀ c2m ∈ db.courses, c2m.id = c.id → c2m.userId = c.userId :=
    fun c2m hm he => congrArg CourseRec.userId (hinj c2m hm c hc he)
  cases r with
  | getUsers creds =>
    simp only [route, withAuth] at hc2
    rcases hres : (authenticateUser db creds).result with u | resp <;>
      rw [hres] at hc2 <;> exact same c2 hc2 hid
  | postUsers salt b =>
    simp only [route] at hc2
    rw [postUsers_courses_eq] at hc2
    exact same c2 hc2 hid
  | getCourses =>
    simp only [route, getCourses] at hc2
    exact same c2 hc2 hid
  | getCourse i =>
    simp only [route, getCourse] at hc2
    exact same c2 hc2 hid
  | postCourses creds b =>
    simp only [route, withAuth] at hc2
    rcases hres : (authenticateUser db creds).result with u | resp <;>
      rw [hres] at hc2
    · rcases postCourses_courses_cases db b with hcase | ⟨nc, hnc, hcase⟩ <;>
        rw [hcase] at hc2
      · exact same c2 hc2 hid
      · rcases List.mem_append.mp hc2 with hm | hm
        · exact same c2 hm hid
        · rw [List.mem_singleton] at hm
          subst hm
          rw [hnc] at hid
          exact absurd (hid ▸ hcb c hc) (Nat.lt_irrefl _)
    · exact same c2 hc2 hid
  | putCourse creds i b =>
    have hb : b.userId = none := hnp creds i b rfl
    simp only [route, withAuth] at hc2
    rcases hres : (authenticateUser db creds).result with u | resp <;>
      rw [hres] at hc2
    · rcases putCourse_courses_cases db u i b with hcase | hcase <;>
        rw [hcase] at hc2
      · exact same c2 hc2 hid
      · obtain ⟨c0, hc0, hceq⟩ := List.mem_map.mp hc2
        have hcid : c2.id = c0.id := by
          rw [← hceq]
          by_cases hif : c0.id == i <;> simp [hif, applyUpdate_id]
        have huid : c2.userId = c0.userId := by
          rw [← hceq]
          by_cases hif : c0.id == i <;>
            simp [hif, applyUpdate_userId_of_none hb]
        rw [huid]
        exact same c0 hc0 (hcid ▸ hid)
    · exact same c2 hc2 hid
  | deleteCourse creds i =>
    simp only [route, withAuth] at hc2
    rcases hres : (authenticateUser db creds).result with u | resp <;>
      rw [hres] at hc2
    · rcases deleteCourse_courses_cases db u i with hcase | hcase <;>
        rw [hcase] at hc2
      · exact same c2 hc2 hid
      · exact same c2 (List.mem_of_mem_filter hc2) hid
    · exact same c2 hc2 hid

/-- C2 witness: an owner PUT without a `userId` in the body rewrites title
and description but keeps the owner. -/
theorem c2_owner_fixed_amended_witness :
    (⟨1, 1, "T2", "D2", none, none, 0, 0⟩ : CourseRec).userId =
      (⟨1, 1, "T", "D", none, none, 0, 0⟩ : CourseRec).userId :=
  c2_owner_fixed_amended db2
    (.putCourse (some ⟨"a@b.com", "pw"⟩) 1 ⟨none, some "T2", some "D2", none, none⟩)
    ⟨1, 1, "T", "D", none, none, 0, 0⟩ ⟨1, 1, "T2", "D2", none, none, 0, 0⟩
    db2_reachable (fun creds i b h => by cases h; rfl)
    (by decide) (by decide) rfl
